import Mathlib

/-!
Verification development for the VScript language pipeline
(lexer / parser AST / tree-walking evaluator), shallowly embedded from
`src/lexer.ts`, `src/parser.ts`, `src/interpreter.ts` and the `VScript.run`
driver of the repository.
-/

namespace VScript

/-- Idealised model of a JavaScript (IEEE-754 double) number value: an
unreduced fraction of integers.  Every constructor of the evaluator keeps the
denominator `d` positive; numeric equality is cross-multiplication, so the
representation being unreduced is unobservable.  Rounding of doubles and the
infinities are not modelled (no claim depends on them); `NaN` is modelled
explicitly by `JNum.nan` because the host's `%` can produce it. -/
structure QF where
  n : Int
  d : Int
deriving DecidableEq

/-- A JavaScript number: a finite value or `NaN`. -/
inductive JNum where
  | fin (x : QF)
  | nan
deriving DecidableEq

/-- Embed an integer literal as a number. -/
def QF.ofInt (k : Int) : QF := ⟨k, 1⟩

def qAdd (a b : QF) : QF := ⟨a.n * b.d + b.n * a.d, a.d * b.d⟩

def qSub (a b : QF) : QF := ⟨a.n * b.d - b.n * a.d, a.d * b.d⟩

def qMul (a b : QF) : QF := ⟨a.n * b.n, a.d * b.d⟩

/-- Fraction division, normalising the sign so the denominator stays
positive (the evaluator only divides by a nonzero right operand). -/
def qDiv (a b : QF) : QF :=
  let nn := a.n * b.d
  let dd := a.d * b.n
  if dd < 0 then ⟨-nn, -dd⟩ else ⟨nn, dd⟩

/-- Truncation toward zero, as JavaScript`s float-modulo uses. -/
def qTrunc (x : QF) : Int := Int.tdiv x.n x.d

def qEq (a b : QF) : Bool := decide (a.n * b.d = b.n * a.d)

def qLt (a b : QF) : Bool := decide (a.n * b.d < b.n * a.d)

def qLe (a b : QF) : Bool := decide (a.n * b.d ≤ b.n * a.d)

def jsAdd : JNum → JNum → JNum
  | .fin a, .fin b => .fin (qAdd a b)
  | _, _ => .nan

def jsSub : JNum → JNum → JNum
  | .fin a, .fin b => .fin (qSub a b)
  | _, _ => .nan

def jsMul : JNum → JNum → JNum
  | .fin a, .fin b => .fin (qMul a b)
  | _, _ => .nan

/-- The host`s `/` on numbers.  The zero-denominator case sits behind the
evaluator`s division-by-zero guard, so only the nonzero case is observable;
a `NaN` operand propagates. -/
def jsDiv : JNum → JNum → JNum
  | .fin a, .fin b => if qEq b ⟨0, 1⟩ then .nan else .fin (qDiv a b)
  | _, _ => .nan

/-- The host`s float modulo `%`: `a - b * trunc(a / b)` with the sign of the
dividend; a zero divisor or a `NaN` operand yields `NaN`. -/
def jsMod : JNum → JNum → JNum
  | .fin a, .fin b =>
      if qEq b ⟨0, 1⟩ then .nan
      else .fin (qSub a (qMul b ⟨qTrunc (qDiv a b), 1⟩))
  | _, _ => .nan

def jsNeg : JNum → JNum
  | .fin a => .fin ⟨-a.n, a.d⟩
  | .nan => .nan

/-- Strict equality `===` on numbers; any comparison with `NaN` is false. -/
def jsEqNum : JNum → JNum → Bool
  | .fin a, .fin b => qEq a b
  | _, _ => false

def jsLt : JNum → JNum → Bool
  | .fin a, .fin b => qLt a b
  | _, _ => false

def jsLe : JNum → JNum → Bool
  | .fin a, .fin b => qLe a b
  | _, _ => false

def jsGt : JNum → JNum → Bool
  | .fin a, .fin b => qLt b a
  | _, _ => false

def jsGe : JNum → JNum → Bool
  | .fin a, .fin b => qLe b a
  | _, _ => false

/-- The token-kind enumeration of `src/lexer.ts` (`TokenType`). -/
inductive TokenType where
  | FUNCTION | IF | ELSE | RETURN | FOR | IN | LET | TRUE | FALSE | NULL
  | IDENTIFIER | NUMBER | STRING
  | PLUS | MINUS | MULTIPLY | DIVIDE | MODULO | ASSIGN
  | EQUAL | NOT_EQUAL | LESS | LESS_EQUAL | GREATER | GREATER_EQUAL
  | AND | OR | NOT
  | LEFT_PAREN | RIGHT_PAREN | LEFT_BRACE | RIGHT_BRACE
  | LEFT_BRACKET | RIGHT_BRACKET | COMMA
  | EOF
deriving DecidableEq

/-- The decoded literal payload of a number or string token
(`Token.literal`, which is `null` for every other token kind). -/
inductive TokLit where
  | num (x : JNum)
  | str (s : String)
deriving DecidableEq

/-- A lexical token (`Token` of `src/lexer.ts`): kind, exact source slice,
decoded literal, and 1-based line/column of its first character. -/
structure Token where
  type : TokenType
  lexeme : String
  literal : Option TokLit
  line : Nat
  column : Nat
deriving DecidableEq

/-- The mutable scanner state of class `Lexer`. -/
structure LexSt where
  src : List Char
  tokens : List Token
  start : Nat
  current : Nat
  line : Nat
  column : Nat
deriving DecidableEq

/-- `source.charAt(i)`; out of range gives the NUL placeholder the scanner
uses for end of input. -/
def charAt (l : List Char) (i : Nat) : Char := (l[i]?).getD '\x00'

/-- `substring(a, b)` over the character list. -/
def sliceStr (l : List Char) (a b : Nat) : String := ⟨(l.drop a).take (b - a)⟩

def lexIsAtEnd (s : LexSt) : Bool := decide (s.src.length ≤ s.current)

/-- `advance()`: bump the column, return the character at `current` and move
past it. -/
def lexAdvance (s : LexSt) : Char × LexSt :=
  (charAt s.src s.current, { s with column := s.column + 1, current := s.current + 1 })

def lexPeek (s : LexSt) : Char := if lexIsAtEnd s then '\x00' else charAt s.src s.current

def lexPeekNext (s : LexSt) : Char :=
  if decide (s.src.length ≤ s.current + 1) then '\x00' else charAt s.src (s.current + 1)

/-- `match(expected)`: conditionally consume one character. -/
def lexMatch (expected : Char) (s : LexSt) : Bool × LexSt :=
  if lexIsAtEnd s then (false, s)
  else if charAt s.src s.current ≠ expected then (false, s)
  else (true, { s with current := s.current + 1, column := s.column + 1 })

/-- `isDigit`: `0`-`9`. -/
def isDigitChar (c : Char) : Bool := decide (48 ≤ c.toNat) && decide (c.toNat ≤ 57)

/-- `isAlpha`: the regex `[一-龥_a-zA-Z]` (CJK ideographs,
underscore, ASCII letters). -/
def isAlphaChar (c : Char) : Bool :=
  (decide (0x4e00 ≤ c.toNat) && decide (c.toNat ≤ 0x9fa5)) ||
  decide (c.toNat = 95) ||
  (decide (97 ≤ c.toNat) && decide (c.toNat ≤ 122)) ||
  (decide (65 ≤ c.toNat) && decide (c.toNat ≤ 90))

def isAlphaNumericChar (c : Char) : Bool := isAlphaChar c || isDigitChar c

/-- `addToken(type, literal)`: the token text is `substring(start, current)`
and its column is the scanner column minus the text length. -/
def addTokenLit (t : TokenType) (lit : Option TokLit) (s : LexSt) : LexSt :=
  let text := sliceStr s.src s.start s.current
  { s with tokens :=
      s.tokens ++ [⟨t, text, lit, s.line, s.column - (s.current - s.start)⟩] }

def addToken (t : TokenType) (s : LexSt) : LexSt := addTokenLit t none s

/-- The keyword map of `Lexer.keywords` — exactly the ten entries of the
source; the logical-operator lexemes 并 / 或 / 非 are absent. -/
def keywords : List (String × TokenType) :=
  [("函数", .FUNCTION), ("如果", .IF), ("否则", .ELSE), ("返回", .RETURN),
   ("对于", .FOR), ("在", .IN), ("就是", .LET), ("真", .TRUE),
   ("假", .FALSE), ("空", .NULL)]

/-- The body of `string()`s scan loop. -/
def scanStringLoop : Nat → LexSt → LexSt
  | 0, s => s
  | fuel+1, s =>
    if lexPeek s ≠ '"' && !(lexIsAtEnd s) then
      let s2 := if lexPeek s = '\n' then { s with line := s.line + 1, column := 1 } else s
      scanStringLoop fuel (lexAdvance s2).2
    else s

/-- `string()`: consume until the closing quote; unterminated is a lexical
error; the literal value is the inner substring. -/
def scanString (fuel : Nat) (s : LexSt) : Except String LexSt :=
  let s2 := scanStringLoop fuel s
  if lexIsAtEnd s2 then .error ("未闭合的字符串在第 " ++ toString s2.line ++ " 行")
  else
    let s3 := (lexAdvance s2).2
    let value := sliceStr s3.src (s3.start + 1) (s3.current - 1)
    .ok (addTokenLit .STRING (some (.str value)) s3)

def scanDigitsLoop : Nat → LexSt → LexSt
  | 0, s => s
  | fuel+1, s => if isDigitChar (lexPeek s) then scanDigitsLoop fuel (lexAdvance s).2 else s

def digitsToNat (cs : List Char) : Nat := cs.foldl (fun acc c => acc * 10 + (c.toNat - 48)) 0

/-- The value `parseFloat` decodes from a lexed number literal
(digits, optionally a point and digits), as an exact fraction. -/
def parseNumLit (cs : List Char) : QF :=
  let ip := cs.takeWhile (fun c => c ≠ '.')
  let fp := (cs.dropWhile (fun c => c ≠ '.')).drop 1
  ⟨(digitsToNat ip : Int) * (10 : Int) ^ fp.length + (digitsToNat fp : Int),
   (10 : Int) ^ fp.length⟩

/-- `number()`: digits, then optionally a decimal point followed by at least
one digit. -/
def scanNumber (fuel : Nat) (s : LexSt) : LexSt :=
  let s2 := scanDigitsLoop fuel s
  let s3 :=
    if lexPeek s2 = '.' && isDigitChar (lexPeekNext s2) then
      scanDigitsLoop fuel (lexAdvance s2).2
    else s2
  let text := (s3.src.drop s3.start).take (s3.current - s3.start)
  addTokenLit .NUMBER (some (.num (.fin (parseNumLit text)))) s3

def scanIdentLoop : Nat → LexSt → LexSt
  | 0, s => s
  | fuel+1, s =>
    if isAlphaNumericChar (lexPeek s) then scanIdentLoop fuel (lexAdvance s).2 else s

/-- `identifier()`: a maximal alphanumeric run; a keyword-map hit gives the
keyword kind, a miss gives `IDENTIFIER`. -/
def scanIdentifier (fuel : Nat) (s : LexSt) : LexSt :=
  let s2 := scanIdentLoop fuel s
  let text := sliceStr s2.src s2.start s2.current
  addToken ((keywords.lookup text).getD .IDENTIFIER) s2

/-- `multilineComment()`: consume through the closing delimiter, counting
lines; running out of input is a lexical error. -/
def multiComment : Nat → LexSt → Except String LexSt
  | 0, s => .error ("未闭合的多行注释在第 " ++ toString s.line ++ " 行")
  | fuel+1, s =>
    if !(lexIsAtEnd s) then
      if lexPeek s = '*' && lexPeekNext s = '/' then
        .ok (lexAdvance (lexAdvance s).2).2
      else
        let s2 := if lexPeek s = '\n' then { s with line := s.line + 1 } else s
        multiComment fuel (lexAdvance s2).2
    else .error ("未闭合的多行注释在第 " ++ toString s.line ++ " 行")

def lineComment : Nat → LexSt → LexSt
  | 0, s => s
  | fuel+1, s =>
    if lexPeek s ≠ '\n' && !(lexIsAtEnd s) then lineComment fuel (lexAdvance s).2 else s

/-- `scanToken()`: the dispatch switch of the scanner. -/
def scanToken (fuel : Nat) (s0 : LexSt) : Except String LexSt :=
  let (c, s) := lexAdvance s0
  if c = '(' then .ok (addToken .LEFT_PAREN s)
  else if c = ')' then .ok (addToken .RIGHT_PAREN s)
  else if c = '\x7b' then .ok (addToken .LEFT_BRACE s)
  else if c = '\x7d' then .ok (addToken .RIGHT_BRACE s)
  else if c = '[' then .ok (addToken .LEFT_BRACKET s)
  else if c = ']' then .ok (addToken .RIGHT_BRACKET s)
  else if c = ',' then .ok (addToken .COMMA s)
  else if c = '+' then .ok (addToken .PLUS s)
  else if c = '-' then .ok (addToken .MINUS s)
  else if c = '*' then .ok (addToken .MULTIPLY s)
  else if c = '%' then .ok (addToken .MODULO s)
  else if c = '=' then
    let (m, s2) := lexMatch '=' s
    .ok (addToken (if m then .EQUAL else .ASSIGN) s2)
  else if c = '!' then
    let (m, s2) := lexMatch '=' s
    .ok (addToken (if m then .NOT_EQUAL else .NOT) s2)
  else if c = '<' then
    let (m, s2) := lexMatch '=' s
    .ok (addToken (if m then .LESS_EQUAL else .LESS) s2)
  else if c = '>' then
    let (m, s2) := lexMatch '=' s
    .ok (addToken (if m then .GREATER_EQUAL else .GREATER) s2)
  else if c = ' ' || c = '\x0d' || c = '\t' then .ok s
  else if c = '\n' then .ok { s with line := s.line + 1, column := 1 }
  else if c = '"' then scanString fuel s
  else if c = '/' then
    let (m, s2) := lexMatch '/' s
    if m then .ok (lineComment fuel s2)
    else
      let (m2, s3) := lexMatch '*' s2
      if m2 then multiComment fuel s3
      else .ok (addToken .DIVIDE s3)
  else if isDigitChar c then .ok (scanNumber fuel s)
  else if isAlphaChar c then .ok (scanIdentifier fuel s)
  else
    .error ("意外的字符 \x27" ++ String.singleton c ++ "\x27 在第 " ++
      toString s.line ++ " 行，第 " ++ toString s.column ++ " 列")

/-- The `while (!isAtEnd())` loop of `scanTokens()`; every `scanToken`
consumes at least one character, so fuel `source.length + 1` always
suffices. -/
def scanLoop : Nat → LexSt → Except String LexSt
  | 0, s => .ok s
  | fuel+1, s =>
    if lexIsAtEnd s then .ok s
    else
      match scanToken fuel { s with start := s.current } with
      | .error e => .error e
      | .ok s2 => scanLoop fuel s2

/-- `Lexer.scanTokens()`: scan the whole source and append the final `EOF`
token. -/
def scanTokens (source : String) : Except String (List Token) :=
  match scanLoop (source.length + 1) ⟨source.toList, [], 0, 0, 1, 1⟩ with
  | .error e => .error e
  | .ok s => .ok (s.tokens ++ [⟨.EOF, "", none, s.line, s.column⟩])

/-- The payload of a `Literal` AST node (the parser stores `true`, `false`,
`null`, or the decoded number/string literal of the token). -/
inductive LitVal where
  | num (x : JNum)
  | str (s : String)
  | boolean (b : Bool)
  | null
deriving DecidableEq

mutual

/-- Expression AST of `src/parser.ts` (`Variable` is rendered `varE`). -/
inductive Expr where
  | binary (left : Expr) (op : Token) (right : Expr)
  | grouping (e : Expr)
  | literal (v : LitVal)
  | unary (op : Token) (right : Expr)
  | varE (name : Token)
  | assign (name : Token) (value : Expr)
  | call (callee : Expr) (paren : Token) (args : List Expr)
  | arrayLit (elems : List Expr)

/-- Statement AST of `src/parser.ts`. -/
inductive Stmt where
  | expression (e : Expr)
  | funcDecl (name : Token) (params : List Token) (body : List Stmt)
  | ifStmt (cond : Expr) (thenBranch : Stmt) (elseBranch : Option Stmt)
  | letStmt (name : Token) (init : Option Expr)
  | retStmt (keyword : Token) (value : Option Expr)
  | whileStmt (cond : Expr) (body : Stmt)
  | block (stmts : List Stmt)
  | forStmt (loopVar : Token) (iterable : Expr) (body : Stmt)

end

/-- The four built-in callables registered in the global environment. -/
inductive BName where
  | output
  | range
  | strlen
  | typetag
deriving DecidableEq

/-- Runtime values.  A user function (`VSFunction`) carries its declaration
and the heap index of its closure environment; arrays are flat sequences
(the language has no element mutation, so reference identity is
unobservable except through `===`, see `jsStrictEq`). -/
inductive Value where
  | num (x : JNum)
  | str (s : String)
  | boolean (b : Bool)
  | null
  | arr (elems : List Value)
  | fn (name : Token) (params : List Token) (body : List Stmt) (closure : Nat)
  | builtin (b : BName)

/-- One `Environment` object: an insertion-ordered name map plus the heap
index of the enclosing environment (`none` for the globals). -/
structure Frame where
  values : List (String × Value)
  enclosing : Option Nat

/-- Interpreter state: the heap of environment frames (index 0 is the
globals), the heap index of the current environment, and the lines written
to stdout by 输出. -/
structure IState where
  frames : List Frame
  current : Nat
  output : List String

/-- `Map.get` over the insertion-ordered entry list. -/
def assocGet : List (String × Value) → String → Option Value
  | [], _ => none
  | (k, v) :: rest, key => if k = key then some v else assocGet rest key

/-- `Map.set`: overwrite in place, or append a new entry. -/
def assocSet : List (String × Value) → String → Value → List (String × Value)
  | [], key, v => [(key, v)]
  | (k, w) :: rest, key, v =>
      if k = key then (k, v) :: rest else (k, w) :: assocSet rest key v

/-- What the evaluator can throw: a `RuntimeError` (token plus message), a
plain `Error` (the built-ins throw these), or a host `TypeError` (reading a
property of `null`).  All three are `Error` instances to the catch
clauses. -/
inductive JsError where
  | runtime (tok : Token) (msg : String)
  | plain (msg : String)
  | hostType (msg : String)

def JsError.message : JsError → String
  | .runtime _ m => m
  | .plain m => m
  | .hostType m => m

def undefinedVarErr (tok : Token) : JsError :=
  .runtime tok ("未定义的变量 \x27" ++ tok.lexeme ++ "\x27")

/-- `Environment.define`: unconditionally set the binding in the frame at
`idx`. -/
def envDefine (frames : List Frame) (idx : Nat) (name : String) (v : Value) : List Frame :=
  match frames[idx]? with
  | some f => frames.set idx { f with values := assocSet f.values name v }
  | none => frames

/-- `Environment.get`, walking the enclosing chain.  The recursion is
fueled because the parent indices live in the heap; frames are only ever
allocated with an already-existing parent, so fuel `frames.length` always
suffices. -/
def envGet : Nat → List Frame → Nat → Token → Except JsError Value
  | 0, _, _, tok => .error (undefinedVarErr tok)
  | fuel+1, frames, idx, tok =>
    match frames[idx]? with
    | none => .error (undefinedVarErr tok)
    | some f =>
      match assocGet f.values tok.lexeme with
      | some v => .ok v
      | none =>
        match f.enclosing with
        | some p => envGet fuel frames p tok
        | none => .error (undefinedVarErr tok)

/-- `Environment.assign`: overwrite here if bound here, else delegate to
the enclosing frame, else fail; fueled like `envGet`. -/
def envAssign : Nat → List Frame → Nat → Token → Value → Except JsError (List Frame)
  | 0, _, _, tok, _ => .error (undefinedVarErr tok)
  | fuel+1, frames, idx, tok, v =>
    match frames[idx]? with
    | none => .error (undefinedVarErr tok)
    | some f =>
      if (assocGet f.values tok.lexeme).isSome then
        .ok (frames.set idx { f with values := assocSet f.values tok.lexeme v })
      else
        match f.enclosing with
        | some p => envAssign fuel frames p tok v
        | none => .error (undefinedVarErr tok)

/-- A non-local exit: a thrown error, the `ReturnValue` sentinel of 返回,
or exhaustion of the evaluation fuel (an artifact of the embedding). -/
inductive Unwind where
  | err (e : JsError)
  | ret (v : Value)
  | fuelOut

/-- The evaluation monad: state threading that survives throws, exactly as
field mutation does in the source. -/
abbrev M (α : Type) := IState → Except Unwind α × IState

def pureM {α : Type} (a : α) : M α := fun σ => (.ok a, σ)

def throwM {α : Type} (u : Unwind) : M α := fun σ => (.error u, σ)

def bindM {α β : Type} (m : M α) (k : α → M β) : M β := fun σ =>
  match m σ with
  | (.error u, σ2) => (.error u, σ2)
  | (.ok a, σ2) => k a σ2

def liftExc {α : Type} (r : Except JsError α) : M α := fun σ =>
  (match r with
   | .ok a => .ok a
   | .error e => .error (.err e), σ)

/-- `isTruthy`: `null` is false, a boolean is itself, anything else is
true. -/
def truthy : Value → Bool
  | .null => false
  | .boolean b => b
  | _ => true

/-- JavaScript `===` on runtime values.  Arrays and user functions compare
by object identity in the host; identity is not modelled here, so those
comparisons yield `false` (no claim exercises them).  Each built-in is one
unique global object, so two built-in values are identical exactly when
they name the same built-in. -/
def jsStrictEq : Value → Value → Bool
  | .num a, .num b => jsEqNum a b
  | .str a, .str b => decide (a = b)
  | .boolean a, .boolean b => a == b
  | .null, .null => true
  | .builtin a, .builtin b => decide (a = b)
  | _, _ => false

/-- `isEqual`: both `null` is true, `null` against anything else is false,
otherwise strict equality. -/
def isEqualV (a b : Value) : Bool :=
  match a, b with
  | .null, .null => true
  | .null, _ => false
  | _, _ => jsStrictEq a b

def checkNumberOperand (op : Token) : Value → Except JsError JNum
  | .num x => .ok x
  | _ => .error (.runtime op "操作数必须是数字")

def checkNumberOperands (op : Token) (l r : Value) : Except JsError (JNum × JNum) :=
  match l, r with
  | .num a, .num b => .ok (a, b)
  | _, _ => .error (.runtime op "操作数必须是数字")

/-- The operator switch of `visitBinaryExpr`, applied after both operands
have been evaluated; the fall-through of the switch yields `null`. -/
def binaryOp (op : Token) (l r : Value) : Except JsError Value :=
  match op.type with
  | .MINUS => (checkNumberOperands op l r).map (fun p => .num (jsSub p.1 p.2))
  | .PLUS =>
      match l, r with
      | .num a, .num b => .ok (.num (jsAdd a b))
      | .str a, .str b => .ok (.str (a ++ b))
      | _, _ => .error (.runtime op "操作数必须都是数字或都是字符串")
  | .DIVIDE =>
      match checkNumberOperands op l r with
      | .error e => .error e
      | .ok (a, b) =>
          if jsEqNum b (.fin ⟨0, 1⟩) then .error (.runtime op "除数不能为零")
          else .ok (.num (jsDiv a b))
  | .MULTIPLY => (checkNumberOperands op l r).map (fun p => .num (jsMul p.1 p.2))
  | .MODULO => (checkNumberOperands op l r).map (fun p => .num (jsMod p.1 p.2))
  | .GREATER => (checkNumberOperands op l r).map (fun p => .boolean (jsGt p.1 p.2))
  | .GREATER_EQUAL => (checkNumberOperands op l r).map (fun p => .boolean (jsGe p.1 p.2))
  | .LESS => (checkNumberOperands op l r).map (fun p => .boolean (jsLt p.1 p.2))
  | .LESS_EQUAL => (checkNumberOperands op l r).map (fun p => .boolean (jsLe p.1 p.2))
  | .EQUAL => .ok (.boolean (isEqualV l r))
  | .NOT_EQUAL => .ok (.boolean (!(isEqualV l r)))
  | .AND => .ok (.boolean (truthy l && truthy r))
  | .OR => .ok (.boolean (truthy l || truthy r))
  | _ => .ok .null

/-- The operator switch of `visitUnaryExpr`. -/
def unaryOp (op : Token) (v : Value) : Except JsError Value :=
  match op.type with
  | .MINUS => (checkNumberOperand op v).map (fun x => .num (jsNeg x))
  | .NOT => .ok (.boolean (!(truthy v)))
  | _ => .ok .null

/-- Modelled `console.log` rendering for 输出; the exact text is host
detail and no claim depends on it. -/
def displayNum : JNum → String
  | .fin x => if x.d == 1 then toString x.n else toString x.n ++ "/" ++ toString x.d
  | .nan => "NaN"

def display : Value → String
  | .num x => displayNum x
  | .str s => s
  | .boolean b => cond b "true" "false"
  | .null => "null"
  | .arr es => "[数组:" ++ toString es.length ++ "]"
  | .fn name _ _ _ => "<函数 " ++ name.lexeme ++ ">"
  | .builtin _ => "<内置函数>"

def builtinArity : BName → Nat
  | .output => 1
  | .range => 2
  | .strlen => 1
  | .typetag => 1

/-- The tag computation of the 类型 built-in.  The `instanceof VSFunction`
test holds only for user-defined functions; the four built-in callables are
plain objects and fall through to 未知. -/
def tagOf : Value → String
  | .arr _ => "数组"
  | .num _ => "数字"
  | .str _ => "字符串"
  | .boolean _ => "布尔"
  | .null => "空"
  | .fn _ _ _ _ => "函数"
  | .builtin _ => "未知"

/-- The array length 范围 builds: the difference `end - start` coerced to a
non-negative integer length (`NaN` and non-positive values give 0). -/
def rangeLen : JNum → Nat
  | .fin x => if qLt ⟨0, 1⟩ x then (Int.tdiv x.n x.d).toNat else 0
  | .nan => 0

def rangeList (start : JNum) (k : Nat) : List Value :=
  (List.range k).map (fun i => .num (jsAdd start (.fin ⟨(i : Int), 1⟩)))

def isNumV : Value → Bool
  | .num _ => true
  | _ => false

/-- The bodies of the four built-ins of the interpreter constructor.  范围
and 长度 throw plain `Error`s — there is no source token to attribute. -/
def callBuiltin (bn : BName) (args : List Value) : M Value := fun σ =>
  match bn with
  | .output =>
      (.ok .null, { σ with output := σ.output ++ [String.intercalate " " (args.map display)] })
  | .range =>
      match args with
      | [.num x, .num y] => (.ok (.arr (rangeList x (rangeLen (jsSub y x)))), σ)
      | _ => (.error (.err (.plain "范围函数需要两个数字参数")), σ)
  | .strlen =>
      match args with
      | [.arr es] => (.ok (.num (.fin ⟨(es.length : Int), 1⟩)), σ)
      | [.str s] => (.ok (.num (.fin ⟨(s.length : Int), 1⟩)), σ)
      | _ => (.error (.err (.plain "长度函数需要数组或字符串参数")), σ)
  | .typetag =>
      match args with
      | v :: _ => (.ok (.str (tagOf v)), σ)
      | [] => (.ok (.str "未知"), σ)

def arityMsg (want got : Nat) : String :=
  "期望 " ++ toString want ++ " 个参数但得到 " ++ toString got ++ " 个"

def litValue : LitVal → Value
  | .num x => .num x
  | .str s => .str s
  | .boolean b => .boolean b
  | .null => .null

/-- The sequential parameter `define` loop of `VSFunction.call`. -/
def bindParams (params : List Token) (args : List Value) : List (String × Value) :=
  (params.zip args).foldl (fun m pa => assocSet m pa.1.lexeme pa.2) []

mutual

/-- The expression visitor of the interpreter.  Fuel-indexed: every
recursive call decrements the fuel and exhaustion raises the artificial
`Unwind.fuelOut`; with enough fuel the behavior is that of the source. -/
def evalExpr : Nat → Expr → M Value
  | 0, _ => throwM .fuelOut
  | fuel+1, e =>
    match e with
    | .literal v => pureM (litValue v)
    | .grouping g => evalExpr fuel g
    | .unary op r => bindM (evalExpr fuel r) (fun v => liftExc (unaryOp op v))
    | .binary l op r =>
        bindM (evalExpr fuel l) (fun a =>
          bindM (evalExpr fuel r) (fun b => liftExc (binaryOp op a b)))
    | .varE name => fun σ =>
        (match envGet σ.frames.length σ.frames σ.current name with
         | .ok v => (.ok v, σ)
         | .error er => (.error (.err er), σ))
    | .assign name vexpr =>
        bindM (evalExpr fuel vexpr) (fun v => fun σ =>
          match envAssign σ.frames.length σ.frames σ.current name v with
          | .ok frames2 => (.ok v, { σ with frames := frames2 })
          | .error er => (.error (.err er), σ))
    | .call callee paren args =>
        bindM (evalExpr fuel callee) (fun c =>
          bindM (evalArgs fuel args) (fun vs => callValue fuel c paren vs))
    | .arrayLit elems => bindM (evalArgs fuel elems) (fun vs => pureM (.arr vs))

/-- Left-to-right evaluation of an argument (or array element) list. -/
def evalArgs : Nat → List Expr → M (List Value)
  | 0, _ => throwM .fuelOut
  | _+1, [] => pureM []
  | fuel+1, e :: rest =>
      bindM (evalExpr fuel e) (fun v =>
        bindM (evalArgs fuel rest) (fun vs => pureM (v :: vs)))

/-- The tail of `visitCallExpr` once callee and arguments are evaluated.
Reading `.call` off `null` throws a host `TypeError`; the other
non-callables fail with 只能调用函数 at the closing paren; a wrong argument
count fails with the arity message; then the callable is invoked. -/
def callValue : Nat → Value → Token → List Value → M Value
  | 0, _, _, _ => throwM .fuelOut
  | _+1, .null, _, _ =>
      throwM (.err (.hostType "Cannot read properties of null (reading \x27call\x27)"))
  | _+1, .num _, paren, _ => throwM (.err (.runtime paren "只能调用函数"))
  | _+1, .str _, paren, _ => throwM (.err (.runtime paren "只能调用函数"))
  | _+1, .boolean _, paren, _ => throwM (.err (.runtime paren "只能调用函数"))
  | _+1, .arr _, paren, _ => throwM (.err (.runtime paren "只能调用函数"))
  | fuel+1, .fn _ params body closure, paren, args =>
      if args.length = params.length then callFunction fuel params body closure args
      else throwM (.err (.runtime paren (arityMsg params.length args.length)))
  | _+1, .builtin bn, paren, args =>
      if args.length = builtinArity bn then fun σ => callBuiltin bn args σ
      else throwM (.err (.runtime paren (arityMsg (builtinArity bn) args.length)))

/-- `VSFunction.call`: allocate a fresh child of the closure environment,
bind the parameters positionally in it, execute the body there, intercept
the return unwind (yielding its value), and yield `null` when the body
completes normally. -/
def callFunction : Nat → List Token → List Stmt → Nat → List Value → M Value
  | 0, _, _, _, _ => throwM .fuelOut
  | fuel+1, params, body, closure, args => fun σ =>
      match executeBlock fuel body σ.frames.length
        { σ with frames := σ.frames ++ [⟨bindParams params args, some closure⟩] } with
      | (.error (.ret v), σ3) => (.ok v, σ3)
      | (.error u, σ3) => (.error u, σ3)
      | (.ok _, σ3) => (.ok .null, σ3)

/-- The statement visitor of the interpreter. -/
def execStmt : Nat → Stmt → M Unit
  | 0, _ => throwM .fuelOut
  | fuel+1, s =>
    match s with
    | .expression e => bindM (evalExpr fuel e) (fun _ => pureM ())
    | .funcDecl name params body => fun σ =>
        let f : Value := .fn name params body σ.current
        (.ok (), { σ with frames := envDefine σ.frames σ.current name.lexeme f })
    | .ifStmt cond thenBranch elseBranch =>
        bindM (evalExpr fuel cond) (fun v =>
          if truthy v then execStmt fuel thenBranch
          else
            match elseBranch with
            | some e => execStmt fuel e
            | none => pureM ())
    | .letStmt name init =>
        bindM
          (match init with
           | some e => evalExpr fuel e
           | none => pureM .null)
          (fun v => fun σ =>
            (.ok (), { σ with frames := envDefine σ.frames σ.current name.lexeme v }))
    | .retStmt _ value =>
        bindM
          (match value with
           | some e => evalExpr fuel e
           | none => pureM .null)
          (fun v => throwM (.ret v))
    | .whileStmt cond body =>
        bindM (evalExpr fuel cond) (fun v =>
          if truthy v then
            bindM (execStmt fuel body) (fun _ => execStmt fuel (.whileStmt cond body))
          else pureM ())
    | .block stmts => fun σ =>
        executeBlock fuel stmts σ.frames.length
          { σ with frames := σ.frames ++ [⟨[], some σ.current⟩] }
    | .forStmt loopVar iterable body =>
        bindM (evalExpr fuel iterable) (fun v => fun σ =>
          match v with
          | .arr elems =>
              forIter fuel elems σ.frames.length loopVar body
                { σ with frames := σ.frames ++ [⟨[], some σ.current⟩] }
          | _ => (.error (.err (.runtime loopVar "\x27对于\x27 循环需要一个数组")), σ))

/-- The element loop of `visitForStmt`: rebind the loop variable in the one
designated environment, then run the body through `executeBlock` with that
environment. -/
def forIter : Nat → List Value → Nat → Token → Stmt → M Unit
  | 0, _, _, _, _ => throwM .fuelOut
  | _+1, [], _, _, _ => pureM ()
  | fuel+1, v :: rest, envIdx, loopVar, body => fun σ =>
      let σ2 := { σ with frames := envDefine σ.frames envIdx loopVar.lexeme v }
      match executeBlock fuel [body] envIdx σ2 with
      | (.ok _, σ3) => forIter fuel rest envIdx loopVar body σ3
      | (.error u, σ3) => (.error u, σ3)

/-- The statement list loop shared by `interpret`, blocks and bodies. -/
def execStmts : Nat → List Stmt → M Unit
  | 0, _ => throwM .fuelOut
  | _+1, [] => pureM ()
  | fuel+1, s :: rest => bindM (execStmt fuel s) (fun _ => execStmts fuel rest)

/-- `Interpreter.executeBlock`: install `envIdx` as the current
environment, run the statements, and restore the previous current
environment on every exit path — the `try/finally` of the source. -/
def executeBlock : Nat → List Stmt → Nat → M Unit
  | 0, _, _ => throwM .fuelOut
  | fuel+1, stmts, envIdx => fun σ =>
      let previous := σ.current
      match execStmts fuel stmts { σ with current := envIdx } with
      | (r, σ2) => (r, { σ2 with current := previous })

end

/-- `Interpreter.interpret`: a `RuntimeError` — and only a `RuntimeError` —
is re-thrown as a plain `Error` in the 运行时错误（第 L 行，第 C 列）：MSG
form; every other unwind, the return sentinel included, propagates
unchanged. -/
def interpret (fuel : Nat) (stmts : List Stmt) : M Unit := fun σ =>
  match execStmts fuel stmts σ with
  | (.error (.err (.runtime tok m)), σ2) =>
      (.error (.err (.plain ("运行时错误（第 " ++ toString tok.line ++ " 行，第 " ++
        toString tok.column ++ " 列）：" ++ m))), σ2)
  | r => r

/-- What the catch clause of `VScript.run` prints for one interpreted
program: `msgR s` models `console.error(s)` for a thrown `Error` instance,
`unknownR` models `console.error` of 发生未知错误 for a thrown non-`Error`
value (only the return sentinel reaches it), and `fuelR` is the embedding
artifact for fuel exhaustion. -/
inductive Report where
  | msgR (s : String)
  | unknownR
  | fuelR

/-- Run one already-parsed program through `interpret` and report what
`VScript.run` would print (`none`: nothing). -/
def runStmts (fuel : Nat) (stmts : List Stmt) (σ : IState) : Option Report × IState :=
  match interpret fuel stmts σ with
  | (.ok _, σ2) => (none, σ2)
  | (.error (.err e), σ2) => (some (.msgR e.message), σ2)
  | (.error (.ret _), σ2) => (some .unknownR, σ2)
  | (.error .fuelOut, σ2) => (some .fuelR, σ2)

/-- The global environment exactly as the interpreter constructor builds
it: the four built-ins, in registration order. -/
def initState : IState :=
  ⟨[⟨[("输出", .builtin .output), ("范围", .builtin .range),
      ("长度", .builtin .strlen), ("类型", .builtin .typetag)], none⟩], 0, []⟩

/-! ### Preservation of the current-environment pointer -/

lemma liftExc_cur {α : Type} (r : Except JsError α) (σ : IState) :
    ((liftExc r σ).2).current = σ.current := by
  cases r <;> rfl

lemma bindM_cur {α β : Type} (m : M α) (k : α → M β)
    (hm : ∀ σ, ((m σ).2).current = σ.current)
    (hk : ∀ a σ, ((k a σ).2).current = σ.current) (σ : IState) :
    ((bindM m k σ).2).current = σ.current := by
  unfold bindM
  rcases h : m σ with ⟨r, σ2⟩
  have hms := hm σ
  rw [h] at hms
  cases r with
  | error u => exact hms
  | ok a => exact (hk a σ2).trans hms

lemma executeBlock_cur (fuel : Nat) (stmts : List Stmt) (envIdx : Nat) (σ : IState) :
    ((executeBlock fuel stmts envIdx σ).2).current = σ.current := by
  cases fuel with
  | zero => rfl
  | succ n => simp only [executeBlock]

lemma callBuiltin_cur (bn : BName) (args : List Value) (σ : IState) :
    ((callBuiltin bn args σ).2).current = σ.current := by
  cases bn with
  | output => rfl
  | range =>
      simp only [callBuiltin]
      split <;> rfl
  | strlen =>
      simp only [callBuiltin]
      split <;> rfl
  | typetag =>
      simp only [callBuiltin]
      split <;> rfl

lemma cur_preserved : ∀ fuel : Nat,
    (∀ e σ, ((evalExpr fuel e σ).2).current = σ.current) ∧
    (∀ es σ, ((evalArgs fuel es σ).2).current = σ.current) ∧
    (∀ v paren args σ, ((callValue fuel v paren args σ).2).current = σ.current) ∧
    (∀ params body closure args σ,
      ((callFunction fuel params body closure args σ).2).current = σ.current) ∧
    (∀ s σ, ((execStmt fuel s σ).2).current = σ.current) ∧
    (∀ elems envIdx loopVar body σ,
      ((forIter fuel elems envIdx loopVar body σ).2).current = σ.current) ∧
    (∀ ss σ, ((execStmts fuel ss σ).2).current = σ.current) := by
  intro fuel
  induction fuel with
  | zero =>
      exact ⟨fun _ _ => rfl, fun _ _ => rfl, fun _ _ _ _ => rfl, fun _ _ _ _ _ => rfl,
        fun _ _ => rfl, fun _ _ _ _ _ => rfl, fun _ _ => rfl⟩
  | succ n ih =>
      obtain ⟨ihE, ihA, ihCV, ihCF, ihS, ihF, ihSS⟩ := ih
      refine ⟨?_, ?_, ?_, ?_, ?_, ?_, ?_⟩
      · intro e σ
        cases e with
        | literal v => rfl
        | grouping g => simpa only [evalExpr] using ihE g σ
        | unary op r =>
            simp only [evalExpr]
            exact bindM_cur _ _ (ihE r) (fun v σ2 => liftExc_cur _ σ2) σ
        | binary l op r =>
            simp only [evalExpr]
            exact bindM_cur _ _ (ihE l)
              (fun a σ2 => bindM_cur _ _ (ihE r) (fun b σ3 => liftExc_cur _ σ3) σ2) σ
        | varE name =>
            simp only [evalExpr]
            rcases envGet σ.frames.length σ.frames σ.current name with er | v <;> rfl
        | assign name vexpr =>
            simp only [evalExpr]
            refine bindM_cur _ _ (ihE vexpr) (fun v σ2 => ?_) σ
            rcases envAssign σ2.frames.length σ2.frames σ2.current name v with er | fr2 <;> rfl
        | call callee paren args =>
            simp only [evalExpr]
            exact bindM_cur _ _ (ihE callee)
              (fun c σ2 => bindM_cur _ _ (ihA args) (fun vs σ3 => ihCV c paren vs σ3) σ2) σ
        | arrayLit elems =>
            simp only [evalExpr]
            exact bindM_cur _ _ (ihA elems) (fun vs σ2 => rfl) σ
      · intro es σ
        cases es with
        | nil => rfl
        | cons e rest =>
            simp only [evalArgs]
            exact bindM_cur _ _ (ihE e)
              (fun v σ2 => bindM_cur _ _ (ihA rest) (fun vs σ3 => rfl) σ2) σ
      · intro v paren args σ
        cases v with
        | null => rfl
        | num x => rfl
        | str s => rfl
        | boolean b => rfl
        | arr es => rfl
        | fn nm params body closure =>
            simp only [callValue]
            split
            · exact ihCF params body closure args σ
            · rfl
        | builtin bn =>
            simp only [callValue]
            split
            · exact callBuiltin_cur bn args σ
            · rfl
      · intro params body closure args σ
        simp only [callFunction]
        have h2 := executeBlock_cur n body σ.frames.length
          { σ with frames := σ.frames ++ [⟨bindParams params args, some closure⟩] }
        rcases h : executeBlock n body σ.frames.length
          { σ with frames := σ.frames ++ [⟨bindParams params args, some closure⟩] } with ⟨r, σ3⟩
        rw [h] at h2
        rcases r with u | a
        · rcases u with e | v | _ <;> exact h2
        · exact h2
      · intro s σ
        cases s with
        | expression e =>
            simp only [execStmt]
            exact bindM_cur _ _ (ihE e) (fun v σ2 => rfl) σ
        | funcDecl name params body => rfl
        | ifStmt cond thenBranch elseBranch =>
            simp only [execStmt]
            refine bindM_cur _ _ (ihE cond) (fun v σ2 => ?_) σ
            split
            · exact ihS thenBranch σ2
            · cases elseBranch with
              | some e => exact ihS e σ2
              | none => rfl
        | letStmt name init =>
            cases init with
            | some e =>
                simp only [execStmt]
                exact bindM_cur _ _ (ihE e) (fun v σ2 => rfl) σ
            | none =>
                simp only [execStmt]
                exact bindM_cur _ _ (fun σ2 => rfl) (fun v σ2 => rfl) σ
        | retStmt kw value =>
            cases value with
            | some e =>
                simp only [execStmt]
                exact bindM_cur _ _ (ihE e) (fun v σ2 => rfl) σ
            | none =>
                simp only [execStmt]
                exact bindM_cur _ _ (fun σ2 => rfl) (fun v σ2 => rfl) σ
        | whileStmt cond body =>
            simp only [execStmt]
            refine bindM_cur _ _ (ihE cond) (fun v σ2 => ?_) σ
            split
            · exact bindM_cur _ _ (ihS body)
                (fun _ σ3 => ihS (.whileStmt cond body) σ3) σ2
            · rfl
        | block stmts =>
            simp only [execStmt]
            exact executeBlock_cur n stmts σ.frames.length
              { σ with frames := σ.frames ++ [⟨[], some σ.current⟩] }
        | forStmt loopVar iterable body =>
            simp only [execStmt]
            refine bindM_cur _ _ (ihE iterable) (fun v σ2 => ?_) σ
            cases v with
            | arr elems =>
                exact ihF elems σ2.frames.length loopVar body
                  { σ2 with frames := σ2.frames ++ [⟨[], some σ2.current⟩] }
            | null => rfl
            | num x => rfl
            | str s => rfl
            | boolean b => rfl
            | fn nm ps bd c => rfl
            | builtin bn => rfl
      · intro elems envIdx loopVar body σ
        cases elems with
        | nil => rfl
        | cons v rest =>
            simp only [forIter]
            have h2 := executeBlock_cur n [body] envIdx
              { σ with frames := envDefine σ.frames envIdx loopVar.lexeme v }
            rcases h : executeBlock n [body] envIdx
              { σ with frames := envDefine σ.frames envIdx loopVar.lexeme v } with ⟨r, σ3⟩
            rw [h] at h2
            rcases r with u | a
            · exact h2
            · exact (ihF rest envIdx loopVar body σ3).trans h2
      · intro ss σ
        cases ss with
        | nil => rfl
        | cons s rest =>
            simp only [execStmts]
            exact bindM_cur _ _ (ihS s) (fun a σ2 => ihSS rest σ2) σ

/-- C9: every execution of a block — a block statement, a function body, or
a for-loop body, all of which go through `executeBlock` — runs with the
designated child environment installed and restores the previous current
environment on every exit path (normal completion, runtime error, return
unwind, and fuel exhaustion alike), so the current-environment pointer
after any statement or expression equals the pointer before it. -/
theorem c9_env_push_pop :
    (∀ fuel stmts envIdx σ, ((executeBlock fuel stmts envIdx σ).2).current = σ.current) ∧
    (∀ fuel s σ, ((execStmt fuel s σ).2).current = σ.current) ∧
    (∀ fuel e σ, ((evalExpr fuel e σ).2).current = σ.current) :=
  ⟨fun fuel stmts envIdx σ => executeBlock_cur fuel stmts envIdx σ,
   fun fuel s σ => (cur_preserved fuel).2.2.2.2.1 s σ,
   fun fuel e σ => (cur_preserved fuel).1 e σ⟩

/-! ### The environment chain -/

lemma assocGet_assocSet_self (l : List (String × Value)) (key : String) (v : Value) :
    assocGet (assocSet l key v) key = some v := by
  induction l with
  | nil => simp [assocSet, assocGet]
  | cons p rest ih =>
      rcases p with ⟨k, w⟩
      by_cases hk : k = key
      · subst hk
        simp [assocSet, assocGet]
      · simp [assocSet, assocGet, hk, ih]

lemma assocGet_assocSet_other (l : List (String × Value)) (key k2 : String) (v : Value)
    (h : k2 ≠ key) : assocGet (assocSet l key v) k2 = assocGet l k2 := by
  induction l with
  | nil => simp [assocSet, assocGet, Ne.symm h]
  | cons p rest ih =>
      rcases p with ⟨k, w⟩
      by_cases hk : k = key
      · subst hk
        simp [assocSet, assocGet, Ne.symm h]
      · by_cases hk2 : k = k2
        · subst hk2
          simp [assocSet, assocGet, hk]
        · simp [assocSet, assocGet, hk, hk2, ih]

lemma assocGet_isSome_assocSet (l : List (String × Value)) (key k2 : String) (v : Value) :
    (assocGet (assocSet l key v) k2).isSome =
      ((assocGet l k2).isSome || decide (k2 = key)) := by
  by_cases h : k2 = key
  · subst h
    simp [assocGet_assocSet_self]
  · simp [assocGet_assocSet_other l key k2 v h, h]

lemma envAssign_here (fuel : Nat) (frames : List Frame) (idx : Nat) (f : Frame)
    (tok : Token) (v : Value) (hf : frames[idx]? = some f)
    (hb : (assocGet f.values tok.lexeme).isSome = true) :
    envAssign (fuel+1) frames idx tok v =
      .ok (frames.set idx { f with values := assocSet f.values tok.lexeme v }) := by
  simp only [envAssign, hf]
  rw [if_pos hb]

lemma envAssign_delegate (fuel : Nat) (frames : List Frame) (idx p : Nat) (f : Frame)
    (tok : Token) (v : Value) (hf : frames[idx]? = some f)
    (hb : assocGet f.values tok.lexeme = none) (he : f.enclosing = some p) :
    envAssign (fuel+1) frames idx tok v = envAssign fuel frames p tok v := by
  have hb2 : ¬((assocGet f.values tok.lexeme).isSome = true) := by simp [hb]
  simp only [envAssign, hf]
  rw [if_neg hb2]
  simp only [he]

lemma envAssign_root_missing (fuel : Nat) (frames : List Frame) (idx : Nat) (f : Frame)
    (tok : Token) (v : Value) (hf : frames[idx]? = some f)
    (hb : assocGet f.values tok.lexeme = none) (he : f.enclosing = none) :
    envAssign (fuel+1) frames idx tok v =
      .error (.runtime tok ("未定义的变量 \x27" ++ tok.lexeme ++ "\x27")) := by
  have hb2 : ¬((assocGet f.values tok.lexeme).isSome = true) := by simp [hb]
  simp only [envAssign, hf]
  rw [if_neg hb2]
  simp only [he, undefinedVarErr]

lemma envAssign_no_new_binding : ∀ (fuel : Nat) (frames : List Frame) (idx : Nat)
    (tok : Token) (v : Value) (frames2 : List Frame),
    envAssign fuel frames idx tok v = .ok frames2 →
    frames2.length = frames.length ∧
    ∀ (j : Nat) (f2 : Frame), frames2[j]? = some f2 → ∃ f1 : Frame, frames[j]? = some f1 ∧
      f2.enclosing = f1.enclosing ∧
      ∀ k : String, (assocGet f2.values k).isSome = (assocGet f1.values k).isSome := by
  intro fuel
  induction fuel with
  | zero =>
      intro frames idx tok v frames2 h
      exact absurd h (by simp [envAssign])
  | succ n ih =>
      intro frames idx tok v frames2 h
      rcases hf : frames[idx]? with _ | f
      · rw [show envAssign (n+1) frames idx tok v = .error (undefinedVarErr tok) by
          simp only [envAssign, hf]] at h
        cases h
      · by_cases hb : (assocGet f.values tok.lexeme).isSome = true
        · rw [envAssign_here n frames idx f tok v hf hb] at h
          have hfr : frames.set idx { f with values := assocSet f.values tok.lexeme v } = frames2 :=
            Except.ok.inj h
          subst hfr
          refine ⟨List.length_set _ _ _, ?_⟩
          intro j f2 hj
          by_cases hji : j = idx
          · subst hji
            have hlt : j < frames.length := (List.getElem?_eq_some.mp hf).1
            rw [List.getElem?_set_eq_of_lt _ hlt] at hj
            refine ⟨f, hf, ?_, ?_⟩
            · rw [← Option.some.inj hj]
            · intro k
              rw [← Option.some.inj hj]
              show (assocGet (assocSet f.values tok.lexeme v) k).isSome = (assocGet f.values k).isSome
              rw [assocGet_isSome_assocSet]
              by_cases hk : k = tok.lexeme
              · subst hk
                simp [hb]
              · simp [hk]
          · rw [List.getElem?_set_ne (fun hh => hji hh.symm)] at hj
            exact ⟨f2, hj, rfl, fun k => rfl⟩
        · rcases hbn : assocGet f.values tok.lexeme with _ | w
          · rcases he : f.enclosing with _ | p
            · rw [envAssign_root_missing n frames idx f tok v hf hbn he] at h
              cases h
            · rw [envAssign_delegate n frames idx p f tok v hf hbn he] at h
              exact ih frames p tok v frames2 h
          · exact absurd (by simp [hbn] : (assocGet f.values tok.lexeme).isSome = true) hb

/-- C8: `Environment.assign` overwrites the binding in the innermost scope
when present, otherwise delegates to the nearest enclosing scope, fails
with 未定义的变量 at the name token when no scope of the chain binds the
name, and never creates a binding (every frame keeps its length, parent and
exact key set). -/
theorem c8_assign_walks_chain :
    (∀ (fuel : Nat) (frames : List Frame) (idx : Nat) (f : Frame) (tok : Token) (v : Value),
        frames[idx]? = some f →
        (assocGet f.values tok.lexeme).isSome = true →
        envAssign (fuel+1) frames idx tok v =
          .ok (frames.set idx { f with values := assocSet f.values tok.lexeme v })) ∧
    (∀ (fuel : Nat) (frames : List Frame) (idx p : Nat) (f : Frame) (tok : Token) (v : Value),
        frames[idx]? = some f →
        assocGet f.values tok.lexeme = none → f.enclosing = some p →
        envAssign (fuel+1) frames idx tok v = envAssign fuel frames p tok v) ∧
    (∀ (fuel : Nat) (frames : List Frame) (idx : Nat) (f : Frame) (tok : Token) (v : Value),
        frames[idx]? = some f →
        assocGet f.values tok.lexeme = none → f.enclosing = none →
        envAssign (fuel+1) frames idx tok v =
          .error (.runtime tok ("未定义的变量 \x27" ++ tok.lexeme ++ "\x27"))) ∧
    (∀ (fuel : Nat) (frames : List Frame) (idx : Nat) (tok : Token) (v : Value)
        (frames2 : List Frame),
        envAssign fuel frames idx tok v = .ok frames2 →
        frames2.length = frames.length ∧
        ∀ (j : Nat) (f2 : Frame), frames2[j]? = some f2 → ∃ f1 : Frame, frames[j]? = some f1 ∧
          f2.enclosing = f1.enclosing ∧
          ∀ k : String, (assocGet f2.values k).isSome = (assocGet f1.values k).isSome) :=
  ⟨envAssign_here, envAssign_delegate, envAssign_root_missing, envAssign_no_new_binding⟩

/-- Concrete two-frame chain used by the C8 witness: a global frame binding
x and a child frame binding y. -/
def framesW : List Frame :=
  [⟨[("x", .num (.fin ⟨0, 1⟩))], none⟩, ⟨[("y", .num (.fin ⟨1, 1⟩))], some 0⟩]

def xTokW : Token := ⟨.IDENTIFIER, "x", none, 1, 1⟩

def zTokW : Token := ⟨.IDENTIFIER, "z", none, 2, 3⟩

theorem c8_assign_witness :
    envAssign 2 framesW 1 xTokW (.num (.fin ⟨5, 1⟩)) =
      envAssign 1 framesW 0 xTokW (.num (.fin ⟨5, 1⟩)) ∧
    envAssign 1 framesW 0 xTokW (.num (.fin ⟨5, 1⟩)) =
      .ok [⟨[("x", .num (.fin ⟨5, 1⟩))], none⟩, ⟨[("y", .num (.fin ⟨1, 1⟩))], some 0⟩] ∧
    envAssign 1 framesW 0 zTokW (.num (.fin ⟨5, 1⟩)) =
      .error (.runtime zTokW ("未定义的变量 \x27" ++ zTokW.lexeme ++ "\x27")) ∧
    ([⟨[("x", .num (.fin ⟨5, 1⟩))], none⟩,
      ⟨[("y", .num (.fin ⟨1, 1⟩))], some 0⟩] : List Frame).length = framesW.length :=
  ⟨c8_assign_walks_chain.2.1 1 framesW 1 0 ⟨[("y", .num (.fin ⟨1, 1⟩))], some 0⟩ xTokW
      (.num (.fin ⟨5, 1⟩)) rfl rfl rfl,
   c8_assign_walks_chain.1 0 framesW 0 ⟨[("x", .num (.fin ⟨0, 1⟩))], none⟩ xTokW
      (.num (.fin ⟨5, 1⟩)) rfl rfl,
   c8_assign_walks_chain.2.2.1 0 framesW 0 ⟨[("x", .num (.fin ⟨0, 1⟩))], none⟩ zTokW
      (.num (.fin ⟨5, 1⟩)) rfl rfl rfl,
   (c8_assign_walks_chain.2.2.2 1 framesW 0 xTokW (.num (.fin ⟨5, 1⟩)) _ rfl).1⟩

/-! ### Binary operator semantics -/

def nlit (k : Int) : Expr := .literal (.num (.fin ⟨k, 1⟩))

def andTokW : Token := ⟨.AND, "并", none, 1, 1⟩

def orTokW : Token := ⟨.OR, "或", none, 1, 1⟩

def modTokW : Token := ⟨.MODULO, "%", none, 1, 3⟩

def divTokW : Token := ⟨.DIVIDE, "/", none, 1, 3⟩

/-- A one-frame state binding x to 0, used to observe assignment side
effects. -/
def stateXW : IState := ⟨[⟨[("x", .num (.fin ⟨0, 1⟩))], none⟩], 0, []⟩

/-- The same state after x was assigned 1. -/
def stateXW1 : IState := ⟨[⟨[("x", .num (.fin ⟨1, 1⟩))], none⟩], 0, []⟩

/-- C6: a binary 并 / 或 expression always evaluates the left operand and
then the right operand — the final state is the state after the right
operand, with its side effects, even when the left operand already decides
the outcome — and yields the boolean and / or of the two truthinesses. -/
theorem c6_logical_no_short_circuit
    (fuel : Nat) (l r : Expr) (op : Token) (σ σ1 σ2 : IState) (v w : Value)
    (h1 : evalExpr fuel l σ = (.ok v, σ1))
    (h2 : evalExpr fuel r σ1 = (.ok w, σ2)) :
    (op.type = .AND →
      evalExpr (fuel+1) (.binary l op r) σ = (.ok (.boolean (truthy v && truthy w)), σ2)) ∧
    (op.type = .OR →
      evalExpr (fuel+1) (.binary l op r) σ = (.ok (.boolean (truthy v || truthy w)), σ2)) := by
  constructor <;> intro hop <;>
    simp only [evalExpr, bindM, h1, h2, liftExc, binaryOp, hop]

theorem c6_no_short_circuit_witness :
    evalExpr 2 (.literal (.boolean false)) stateXW = (.ok (.boolean false), stateXW) ∧
    evalExpr 2 (.assign ⟨.IDENTIFIER, "x", none, 1, 1⟩ (nlit 1)) stateXW =
      (.ok (.num (.fin ⟨1, 1⟩)), stateXW1) ∧
    evalExpr 3 (.binary (.literal (.boolean false)) andTokW
        (.assign ⟨.IDENTIFIER, "x", none, 1, 1⟩ (nlit 1))) stateXW =
      (.ok (.boolean false), stateXW1) ∧
    evalExpr 3 (.binary (.literal (.boolean true)) orTokW
        (.assign ⟨.IDENTIFIER, "x", none, 1, 1⟩ (nlit 1))) stateXW =
      (.ok (.boolean true), stateXW1) :=
  ⟨rfl, rfl,
   (c6_logical_no_short_circuit 2 (.literal (.boolean false))
      (.assign ⟨.IDENTIFIER, "x", none, 1, 1⟩ (nlit 1)) andTokW stateXW stateXW stateXW1
      (.boolean false) (.num (.fin ⟨1, 1⟩)) rfl rfl).1 rfl,
   (c6_logical_no_short_circuit 2 (.literal (.boolean true))
      (.assign ⟨.IDENTIFIER, "x", none, 1, 1⟩ (nlit 1)) orTokW stateXW stateXW stateXW1
      (.boolean true) (.num (.fin ⟨1, 1⟩)) rfl rfl).2 rfl⟩

/-- C10: with number operands, `%` carries no zero-divisor guard — the
modulo expression always succeeds, for a zero right operand too, yielding
the host float-modulo value — while the guard fires for `/` exactly when
the right operand is strictly equal to 0. -/
theorem c10_modulo_no_zero_guard
    (fuel : Nat) (l r : Expr) (op : Token) (σ σ1 σ2 : IState) (a b : JNum)
    (h1 : evalExpr fuel l σ = (.ok (.num a), σ1))
    (h2 : evalExpr fuel r σ1 = (.ok (.num b), σ2)) :
    (op.type = .MODULO →
      evalExpr (fuel+1) (.binary l op r) σ = (.ok (.num (jsMod a b)), σ2)) ∧
    (op.type = .DIVIDE → jsEqNum b (.fin ⟨0, 1⟩) = true →
      evalExpr (fuel+1) (.binary l op r) σ =
        (.error (.err (.runtime op "除数不能为零")), σ2)) := by
  constructor
  · intro hop
    simp only [evalExpr, bindM, h1, h2, liftExc, binaryOp, hop, checkNumberOperands,
      Except.map]
  · intro hop hz
    simp only [evalExpr, bindM, h1, h2, liftExc, binaryOp, hop, checkNumberOperands, hz,
      if_true]

theorem c10_modulo_witness :
    evalExpr 2 (.binary (nlit 5) modTokW (nlit 0)) initState = (.ok (.num .nan), initState) ∧
    evalExpr 2 (.binary (nlit 5) divTokW (nlit 0)) initState =
      (.error (.err (.runtime divTokW "除数不能为零")), initState) :=
  ⟨(c10_modulo_no_zero_guard 1 (nlit 5) (nlit 0) modTokW initState initState initState
      (.fin ⟨5, 1⟩) (.fin ⟨0, 1⟩) rfl rfl).1 rfl,
   (c10_modulo_no_zero_guard 1 (nlit 5) (nlit 0) divTokW initState initState initState
      (.fin ⟨5, 1⟩) (.fin ⟨0, 1⟩) rfl rfl).2 rfl rfl⟩

/-! ### Function invocation and closures -/

lemma assocGet_bindFold_notin : ∀ (pas : List (Token × Value)) (init : List (String × Value))
    (k : String), (∀ pa ∈ pas, pa.1.lexeme ≠ k) →
    assocGet (pas.foldl (fun m pa => assocSet m pa.1.lexeme pa.2) init) k = assocGet init k := by
  intro pas
  induction pas with
  | nil => intro init k _; rfl
  | cons pa rest ih =>
      intro init k h
      simp only [List.foldl_cons]
      rw [ih (assocSet init pa.1.lexeme pa.2) k (fun q hq => h q (List.mem_cons_of_mem pa hq))]
      exact assocGet_assocSet_other init pa.1.lexeme k pa.2
        (fun hk => (h pa (List.mem_cons_self pa rest)) hk.symm)

lemma assocGet_bindFold_pos : ∀ (pas : List (Token × Value)) (init : List (String × Value)),
    ((pas.map (fun pa => pa.1.lexeme)).Nodup) →
    ∀ (i : Nat) (hi : i < pas.length),
    assocGet (pas.foldl (fun m pa => assocSet m pa.1.lexeme pa.2) init)
        ((pas.get ⟨i, hi⟩).1.lexeme) = some ((pas.get ⟨i, hi⟩).2) := by
  intro pas
  induction pas with
  | nil =>
      intro init _ i hi
      exact absurd hi (by simp)
  | cons pa rest ih =>
      intro init hnd i hi
      simp only [List.map_cons, List.nodup_cons] at hnd
      cases i with
      | zero =>
          simp only [List.foldl_cons, List.get]
          rw [assocGet_bindFold_notin rest (assocSet init pa.1.lexeme pa.2) pa.1.lexeme
            (fun q hq hqe => hnd.1 (hqe ▸ List.mem_map_of_mem (fun z => z.1.lexeme) hq))]
          exact assocGet_assocSet_self init pa.1.lexeme pa.2
      | succ i2 =>
          simp only [List.foldl_cons, List.get]
          exact ih (assocSet init pa.1.lexeme pa.2) hnd.2 i2 (Nat.lt_of_succ_lt_succ hi)

lemma bindParams_notin (params : List Token) (args : List Value) (k : String)
    (h : ∀ t ∈ params, t.lexeme ≠ k) : assocGet (bindParams params args) k = none := by
  unfold bindParams
  rw [assocGet_bindFold_notin (params.zip args) [] k
    (fun pa hpa => h pa.1 (List.of_mem_zip hpa).1)]
  rfl

lemma envGet_step (fuel : Nat) (frames : List Frame) (idx p : Nat) (f : Frame) (tok : Token)
    (hf : frames[idx]? = some f) (hb : assocGet f.values tok.lexeme = none)
    (he : f.enclosing = some p) :
    envGet (fuel+1) frames idx tok = envGet fuel frames p tok := by
  simp only [envGet, hf, hb, he]

/-- C7: a function declaration closes over the environment that is current
at declaration time; every invocation appends one fresh frame whose parent
is that closure environment — never the caller environment — binds the
parameters positionally in it, executes the body there, and yields the
unwound return value, or `null` when the body completes without a 返回;
names that are not parameters resolve through the closure chain. -/
theorem c7_closure_call
    (fuel : Nat) (nm : Token) (params : List Token) (body : List Stmt)
    (closure : Nat) (args : List Value) (σ : IState) (paren : Token)
    (h : args.length = params.length) :
    (∀ σd : IState, execStmt (fuel+1) (.funcDecl nm params body) σd =
      (.ok (), { σd with frames := envDefine σd.frames σd.current nm.lexeme (.fn nm params body σd.current) })) ∧
    (callValue (fuel+2) (.fn nm params body closure) paren args σ =
      match executeBlock fuel body σ.frames.length
        { σ with frames := σ.frames ++ [⟨bindParams params args, some closure⟩] } with
      | (.error (.ret v), σ3) => (.ok v, σ3)
      | (.error u, σ3) => (.error u, σ3)
      | (.ok _, σ3) => (.ok Value.null, σ3)) ∧
    ((σ.frames ++ [⟨bindParams params args, some closure⟩])[σ.frames.length]? =
        some ⟨bindParams params args, some closure⟩ ∧
      σ.frames[σ.frames.length]? = none) ∧
    (∀ (efuel : Nat) (tok : Token), (∀ t ∈ params, t.lexeme ≠ tok.lexeme) →
      envGet (efuel+1) (σ.frames ++ [⟨bindParams params args, some closure⟩])
          σ.frames.length tok =
        envGet efuel (σ.frames ++ [⟨bindParams params args, some closure⟩]) closure tok) ∧
    ((params.map Token.lexeme).Nodup → ∀ (i : Nat) (hi : i < (params.zip args).length),
      assocGet (bindParams params args) (((params.zip args).get ⟨i, hi⟩).1.lexeme) =
        some (((params.zip args).get ⟨i, hi⟩).2)) := by
  refine ⟨fun σd => rfl, ?_, ⟨?_, ?_⟩, ?_, ?_⟩
  · simp only [callValue]
    rw [if_pos h]
    simp only [callFunction]
  · exact List.getElem?_concat_length _ _
  · exact List.getElem?_eq_none (Nat.le_refl _)
  · intro efuel tok htok
    exact envGet_step efuel _ σ.frames.length closure _ tok
      (List.getElem?_concat_length _ _) (bindParams_notin params args tok.lexeme htok) rfl
  · intro hnd i hi
    have hkeys : ((params.zip args).map (fun pa => pa.1.lexeme)).Nodup := by
      have h1 : ((params.zip args).map (fun pa => pa.1.lexeme)) =
          ((params.zip args).map Prod.fst).map Token.lexeme := by
        rw [List.map_map]
        rfl
      rw [h1, List.map_fst_zip params args (Nat.le_of_eq h.symm)]
      exact hnd
    exact assocGet_bindFold_pos (params.zip args) [] hkeys i hi

def fTokW : Token := ⟨.IDENTIFIER, "f", none, 1, 1⟩

def rTokW : Token := ⟨.RETURN, "返回", none, 1, 10⟩

def parenTokW : Token := ⟨.RIGHT_PAREN, ")", none, 1, 12⟩

/-- A caller state whose current environment (index 1) differs from the
closure environment (the globals, index 0). -/
def callerStateW : IState := ⟨[⟨[], none⟩, ⟨[], some 0⟩], 1, []⟩

theorem c7_closure_call_witness :
    callValue 6 (.fn fTokW [⟨.IDENTIFIER, "x", none, 1, 1⟩]
        [.retStmt rTokW (some (.varE ⟨.IDENTIFIER, "x", none, 1, 1⟩))] 0) parenTokW
        [.num (.fin ⟨7, 1⟩)] callerStateW =
      (.ok (.num (.fin ⟨7, 1⟩)),
        ⟨[⟨[], none⟩, ⟨[], some 0⟩, ⟨[("x", .num (.fin ⟨7, 1⟩))], some 0⟩], 1, []⟩) := by
  rw [(c7_closure_call 4 fTokW [⟨.IDENTIFIER, "x", none, 1, 1⟩]
    [.retStmt rTokW (some (.varE ⟨.IDENTIFIER, "x", none, 1, 1⟩))] 0
    [.num (.fin ⟨7, 1⟩)] callerStateW parenTokW rfl).2.1]
  rfl

/-! ### Error surfacing and the run() handler -/

lemma callBuiltin_no_ret (bn : BName) (args : List Value) (σ : IState) (w : Value) :
    (callBuiltin bn args σ).1 ≠ .error (.ret w) := by
  cases bn with
  | output => simp [callBuiltin]
  | range =>
      simp only [callBuiltin]
      split <;> simp
  | strlen =>
      simp only [callBuiltin]
      split <;> simp
  | typetag =>
      simp only [callBuiltin]
      split <;> simp

lemma callFunction_no_ret (fuel : Nat) (params : List Token) (body : List Stmt)
    (closure : Nat) (args : List Value) (σ : IState) (w : Value) :
    (callFunction fuel params body closure args σ).1 ≠ .error (.ret w) := by
  cases fuel with
  | zero => simp [callFunction, throwM]
  | succ n =>
      simp only [callFunction]
      rcases hb : executeBlock n body σ.frames.length
        { σ with frames := σ.frames ++ [⟨bindParams params args, some closure⟩] } with ⟨r, σ3⟩
      rcases r with u | a
      · rcases u with e | v | _ <;> simp
      · simp

lemma callValue_no_ret (fuel : Nat) (v : Value) (paren : Token) (args : List Value)
    (σ : IState) (w : Value) : (callValue fuel v paren args σ).1 ≠ .error (.ret w) := by
  cases fuel with
  | zero => simp [callValue, throwM]
  | succ n =>
      cases v with
      | null => simp [callValue, throwM]
      | num x => simp [callValue, throwM]
      | str s => simp [callValue, throwM]
      | boolean b => simp [callValue, throwM]
      | arr es => simp [callValue, throwM]
      | fn nm params body closure =>
          simp only [callValue]
          split
          · exact callFunction_no_ret n params body closure args σ w
          · simp [throwM]
      | builtin bn =>
          simp only [callValue]
          split
          · exact callBuiltin_no_ret bn args σ w
          · simp [throwM]

/-- C2 (amended): the return unwind is a distinct signal — a 返回 executed
during a function call is consumed by the call and never escapes a call as
an error; `interpret` passes a return unwind through unchanged (wrapping
only runtime errors); but a top-level 返回 does reach the run() handler,
which reports it through the catch-all branch as the generic 发生未知错误
rather than as a lexical, parse, or runtime error. -/
theorem c2_return_unwind_amended :
    (∀ (fuel : Nat) (v : Value) (paren : Token) (args : List Value) (σ : IState) (w : Value),
      (callValue fuel v paren args σ).1 ≠ .error (.ret w)) ∧
    (∀ (fuel : Nat) (stmts : List Stmt) (σ σ2 : IState) (v : Value),
      execStmts fuel stmts σ = (.error (.ret v), σ2) →
      interpret fuel stmts σ = (.error (.ret v), σ2) ∧
      runStmts fuel stmts σ = (some .unknownR, σ2)) := by
  refine ⟨callValue_no_ret, ?_⟩
  intro fuel stmts σ σ2 v h
  have hi : interpret fuel stmts σ = (.error (.ret v), σ2) := by
    simp only [interpret, h]
  exact ⟨hi, by simp only [runStmts, hi]⟩

def retTokW : Token := ⟨.RETURN, "返回", none, 1, 1⟩

/-- C2 counterexample: executing a top-level 返回 makes run() report an
error to the user — the generic 发生未知错误 of the non-`Error` catch
branch (`Report.unknownR`). -/
theorem c2_return_report_counterexample :
    runStmts 5 [.retStmt retTokW (some (nlit 1))] initState = (some .unknownR, initState) := rfl

theorem c2_return_unwind_witness :
    (callValue 3 (.builtin .output) parenTokW [.null] initState).1 ≠ .error (.ret .null) ∧
    runStmts 5 [.retStmt retTokW (some (nlit 1))] initState = (some .unknownR, initState) :=
  ⟨c2_return_unwind_amended.1 3 (.builtin .output) parenTokW [.null] initState .null,
   (c2_return_unwind_amended.2 5 [.retStmt retTokW (some (nlit 1))] initState initState
      (.num (.fin ⟨1, 1⟩)) rfl).2⟩

def fanweiTokW : Token := ⟨.IDENTIFIER, "范围", none, 1, 1⟩

def rangeBadProgW : List Stmt :=
  [.expression (.call (.varE fanweiTokW) parenTokW [.literal (.str "a"), nlit 2])]

/-- C3 counterexample: a failure inside the built-in 范围 is thrown as a
plain `Error` with no source token; run() surfaces its bare message, which
does not carry the 运行时错误（第 L 行，第 C 列） framing. -/
theorem c3_builtin_error_counterexample :
    runStmts 9 rangeBadProgW initState =
      (some (.msgR "范围函数需要两个数字参数"), initState) ∧
    List.isPrefixOf "运行时错误".toList "范围函数需要两个数字参数".toList = false :=
  ⟨rfl, by decide⟩

/-- C3 (amended): every token-attributed `RuntimeError` is surfaced in the
exact form 运行时错误（第 L 行，第 C 列）：MSG with the token coordinates;
but failures inside the built-ins 范围 and 长度 are plain `Error`s,
surfaced as their bare message with no token attribution. -/
theorem c3_runtime_error_surface_amended :
    (∀ (fuel : Nat) (stmts : List Stmt) (σ σ2 : IState) (tok : Token) (m : String),
      execStmts fuel stmts σ = (.error (.err (.runtime tok m)), σ2) →
      runStmts fuel stmts σ =
        (some (.msgR ("运行时错误（第 " ++ toString tok.line ++ " 行，第 " ++
          toString tok.column ++ " 列）：" ++ m)), σ2)) ∧
    (∀ (args : List Value) (σ : IState), (∀ x y : JNum, args ≠ [Value.num x, Value.num y]) →
      callBuiltin .range args σ = (.error (.err (.plain "范围函数需要两个数字参数")), σ)) ∧
    (∀ (args : List Value) (σ : IState), (∀ es : List Value, args ≠ [Value.arr es]) →
      (∀ s : String, args ≠ [Value.str s]) →
      callBuiltin .strlen args σ = (.error (.err (.plain "长度函数需要数组或字符串参数")), σ)) := by
  refine ⟨?_, ?_, ?_⟩
  · intro fuel stmts σ σ2 tok m h
    simp only [runStmts, interpret, h, JsError.message]
  · intro args σ h
    rcases args with _ | ⟨v, args2⟩
    · rfl
    rcases args2 with _ | ⟨w, args3⟩
    · cases v <;> rfl
    rcases args3 with _ | ⟨u, args4⟩
    · cases v <;> cases w <;> first | rfl | exact absurd rfl (h _ _)
    · cases v <;> cases w <;> rfl
  · intro args σ h1 h2
    rcases args with _ | ⟨v, args2⟩
    · rfl
    rcases args2 with _ | ⟨w, args3⟩
    · cases v with
      | arr es => exact absurd rfl (h1 es)
      | str s => exact absurd rfl (h2 s)
      | num x => rfl
      | boolean b => rfl
      | null => rfl
      | fn nm ps bd c => rfl
      | builtin bn => rfl
    · cases v <;> rfl

theorem c3_surface_witness :
    runStmts 4 [.expression (.binary (nlit 1) divTokW (nlit 0))] initState =
      (some (.msgR ("运行时错误（第 " ++ toString divTokW.line ++ " 行，第 " ++
        toString divTokW.column ++ " 列）：" ++ "除数不能为零")), initState) ∧
    callBuiltin .range [.str "a", .num (.fin ⟨2, 1⟩)] initState =
      (.error (.err (.plain "范围函数需要两个数字参数")), initState) ∧
    callBuiltin .strlen [.num (.fin ⟨2, 1⟩)] initState =
      (.error (.err (.plain "长度函数需要数组或字符串参数")), initState) :=
  ⟨c3_runtime_error_surface_amended.1 4 [.expression (.binary (nlit 1) divTokW (nlit 0))]
      initState initState divTokW "除数不能为零" rfl,
   c3_runtime_error_surface_amended.2.1 [.str "a", .num (.fin ⟨2, 1⟩)] initState (by simp),
   c3_runtime_error_surface_amended.2.2 [.num (.fin ⟨2, 1⟩)] initState (by simp) (by simp)⟩

def nullCallProgW : List Stmt :=
  [.expression (.call (.literal .null) parenTokW [nlit 1])]

/-- C4: evaluating a call whose callee is 空 does not raise the runtime
error 只能调用函数 at the closing paren — the host TypeError thrown when
`.call` is read off `null` escapes instead, and run() surfaces its raw
message without the 运行时错误 framing or any token attribution. -/
theorem c4_null_callee_bug :
    evalExpr 5 (.call (.literal .null) parenTokW [nlit 1]) initState =
      (.error (.err (.hostType "Cannot read properties of null (reading \x27call\x27)")),
        initState) ∧
    runStmts 9 nullCallProgW initState =
      (some (.msgR "Cannot read properties of null (reading \x27call\x27)"), initState) ∧
    List.isPrefixOf "运行时错误".toList
      "Cannot read properties of null (reading \x27call\x27)".toList = false :=
  ⟨rfl, rfl, by decide⟩

/-- C5 counterexample: 类型 applied to a built-in callable (here 输出)
yields 未知, not 函数 — the `instanceof VSFunction` test is false for the
built-ins. -/
theorem c5_type_builtin_counterexample :
    callValue 1 (.builtin .typetag) parenTokW [.builtin .output] initState =
      (.ok (.str "未知"), initState) ∧
    ("未知" : String) ≠ "函数" :=
  ⟨rfl, by decide⟩

/-- C5 (amended): 类型 returns 数组 for arrays, 数字 for numbers, 字符串
for strings, 布尔 for booleans, 空 for null, 函数 for user-defined
functions only; the four built-in callables fall through to 未知; and with
one argument it never fails. -/
theorem c5_type_builtin_amended :
    (∀ (fuel : Nat) (paren : Token) (σ : IState) (es : List Value),
      callValue (fuel+1) (.builtin .typetag) paren [.arr es] σ = (.ok (.str "数组"), σ)) ∧
    (∀ (fuel : Nat) (paren : Token) (σ : IState) (x : JNum),
      callValue (fuel+1) (.builtin .typetag) paren [.num x] σ = (.ok (.str "数字"), σ)) ∧
    (∀ (fuel : Nat) (paren : Token) (σ : IState) (s : String),
      callValue (fuel+1) (.builtin .typetag) paren [.str s] σ = (.ok (.str "字符串"), σ)) ∧
    (∀ (fuel : Nat) (paren : Token) (σ : IState) (b : Bool),
      callValue (fuel+1) (.builtin .typetag) paren [.boolean b] σ = (.ok (.str "布尔"), σ)) ∧
    (∀ (fuel : Nat) (paren : Token) (σ : IState),
      callValue (fuel+1) (.builtin .typetag) paren [.null] σ = (.ok (.str "空"), σ)) ∧
    (∀ (fuel : Nat) (paren : Token) (σ : IState) (nm : Token) (ps : List Token)
        (bd : List Stmt) (c : Nat),
      callValue (fuel+1) (.builtin .typetag) paren [.fn nm ps bd c] σ = (.ok (.str "函数"), σ)) ∧
    (∀ (fuel : Nat) (paren : Token) (σ : IState) (bn : BName),
      callValue (fuel+1) (.builtin .typetag) paren [.builtin bn] σ = (.ok (.str "未知"), σ)) ∧
    (∀ (fuel : Nat) (paren : Token) (σ : IState) (v : Value),
      ∃ s : String, callValue (fuel+1) (.builtin .typetag) paren [v] σ = (.ok (.str s), σ)) := by
  refine ⟨fun _ _ _ _ => rfl, fun _ _ _ _ => rfl, fun _ _ _ _ => rfl, fun _ _ _ _ => rfl,
    fun _ _ _ => rfl, fun _ _ _ _ _ _ _ => rfl, fun _ _ _ _ => rfl,
    fun fuel paren σ v => ⟨tagOf v, ?_⟩⟩
  cases v <;> rfl

/-- C1: the keyword map of the lexer omits the three logical-operator
lexemes, so a scan of 并, 或 or 非 emits an IDENTIFIER token instead of the
logical keyword kind (while a mapped keyword such as 如果 does receive its
kind): the parser and evaluator support for 并 / 或 is unreachable from
source text. -/
theorem c1_logical_keywords_lex_as_identifiers :
    scanTokens "并" = .ok [⟨.IDENTIFIER, "并", none, 1, 1⟩, ⟨.EOF, "", none, 1, 2⟩] ∧
    scanTokens "或" = .ok [⟨.IDENTIFIER, "或", none, 1, 1⟩, ⟨.EOF, "", none, 1, 2⟩] ∧
    scanTokens "非" = .ok [⟨.IDENTIFIER, "非", none, 1, 1⟩, ⟨.EOF, "", none, 1, 2⟩] ∧
    scanTokens "如果" = .ok [⟨.IF, "如果", none, 1, 1⟩, ⟨.EOF, "", none, 1, 3⟩] ∧
    keywords.lookup "并" = none ∧ keywords.lookup "或" = none ∧ keywords.lookup "非" = none :=
  ⟨rfl, rfl, rfl, rfl, rfl, rfl, rfl⟩

end VScript
